import Mathlib

/-!
Verification of the baseball-chat reconciliation / normalization layer.

The player mapper (`num`, `slugify`, `mapRawToPlayer`), the update-input
schema (`UpdatePlayerSchema`) and the two HTTP route handlers are embedded
from the repository sources.  The reconciliation service
(`getPlayers` / `getPlayerById` / `updatePlayer`) and the description cache
policy (`getOrGenerate`) are not present in the repository snapshot (only
their callers are), so they are modelled from the specification.
-/

namespace BaseballChat

/-- JavaScript runtime values, as far as the player mapper observes them.
NaN is kept apart from finite numbers; JS numbers are modelled as rationals. -/
inductive JsValue where
  | vNum (q : ℚ)
  | vNaN
  | vStr (s : String)
  | vBool (b : Bool)
  | vNull
  deriving DecidableEq

/-- A JavaScript number: NaN or a finite value. -/
inductive JsNum where
  | nan
  | val (q : ℚ)
  deriving DecidableEq

/-- A raw upstream row: a JS object seen as an association list from property
names to values; an absent property reads as `none` (JS `undefined`). -/
def RawRow := List (String × JsValue)

/-- Property access `raw[k]` (`none` = property absent, i.e. undefined). -/
def jsGet (raw : RawRow) (k : String) : Option JsValue :=
  List.lookup k raw

/-- Decimal digit test. -/
def isDigitChar (c : Char) : Bool := '0' ≤ c && c ≤ '9'

/-- Numeric value of a digit character. -/
def digitVal (c : Char) : ℕ := c.toNat - 48

/-- Value of a digit string. -/
def digitsVal (l : List Char) : ℕ :=
  List.foldl (fun a c => 10 * a + digitVal c) 0 l

/-- Parse an unsigned decimal numeral: digits with an optional fractional
part (`"12"`, `"12.5"`, `".5"`, `"5."`).  Hexadecimal and exponent forms are
not modelled; they do not occur in the data this mapper normalizes. -/
def parseUnsigned (l : List Char) : Option ℚ :=
  let ip := l.takeWhile isDigitChar
  let rest := l.dropWhile isDigitChar
  match rest with
  | [] => if ip.isEmpty then none else some (digitsVal ip)
  | '.' :: fp =>
      if fp.all isDigitChar && !(ip.isEmpty && fp.isEmpty) then
        some ((digitsVal ip : ℚ) + (digitsVal fp : ℚ) / (10 : ℚ) ^ fp.length)
      else none
  | _ => none

/-- Whitespace as trimmed by JS string-to-number conversion (common forms). -/
def isWsChar (c : Char) : Bool := c = ' ' || c = '\t' || c = '\n' || c = '\r'

/-- Trim whitespace from both ends of a character list. -/
def trimChars (l : List Char) : List Char :=
  ((l.dropWhile isWsChar).reverse.dropWhile isWsChar).reverse

/-- JavaScript `Number(string)`: empty/whitespace-only is 0, a decimal
numeral with optional sign is its value, anything else is NaN. -/
def jsStringToNum (s : String) : JsNum :=
  match trimChars s.toList with
  | [] => .val 0
  | '-' :: l => match parseUnsigned l with | some q => .val (-q) | none => .nan
  | '+' :: l => match parseUnsigned l with | some q => .val q | none => .nan
  | l => match parseUnsigned l with | some q => .val q | none => .nan

/-- JavaScript `Number(v)` for the value shapes in the model. -/
def jsToNumber : JsValue → JsNum
  | .vNum q => .val q
  | .vNaN => .nan
  | .vStr s => jsStringToNum s
  | .vBool b => .val (if b then 1 else 0)
  | .vNull => .val 0

/-- The source helper `num = (v) => (typeof v === 'number' ? v : Number(v ?? 0))`.
NaN has typeof 'number', so it passes through the first branch; null and
undefined coalesce to 0 before conversion. -/
def num : Option JsValue → JsNum
  | some (.vNum q) => .val q
  | some .vNaN => .nan
  | some .vNull => .val 0
  | none => .val 0
  | some (.vStr s) => jsStringToNum s
  | some (.vBool b) => .val (if b then 1 else 0)

/-- JavaScript `String(v)`.  Formatting of non-integer numbers is simplified
to the rational's representation; the mapper only applies this to name and
position fields. -/
def jsToString : JsValue → String
  | .vStr s => s
  | .vNull => "null"
  | .vNaN => "NaN"
  | .vBool b => if b then "true" else "false"
  | .vNum q => if q.den = 1 then toString q.num else toString q

/-- One step of the `??` chains in the mapper: null and undefined both fall
through to the right operand. -/
def orv (a b : Option JsValue) : Option JsValue :=
  match a with
  | none => b
  | some .vNull => b
  | some v => some v

/-- `raw[k1] ?? raw[k2] ?? ...` for an ordered list of keys. -/
def chainGet (raw : RawRow) : List String → Option JsValue
  | [] => none
  | k :: ks => orv (jsGet raw k) (chainGet raw ks)

/-- `String(x ?? '')` applied to the outcome of a key chain. -/
def strOf (v : Option JsValue) : String :=
  match v with
  | none => ""
  | some .vNull => ""
  | some w => jsToString w

/-- Characters kept by the slug regex `[^a-z0-9]` after lower-casing. -/
def isSlugChar (c : Char) : Bool := ('a' ≤ c && c ≤ 'z') || ('0' ≤ c && c ≤ '9')

/-- Scanner for `.replace(/[^a-z0-9]+/g, '-')`: the flag records whether the
scanner is inside a non-slug run whose hyphen has already been emitted. -/
def collapseAux : Bool → List Char → List Char
  | _, [] => []
  | inRun, c :: rest =>
      if isSlugChar c then c :: collapseAux false rest
      else if inRun then collapseAux true rest
      else '-' :: collapseAux true rest

/-- The replacement `.replace(/[^a-z0-9]+/g, '-')`: each maximal run of
non-slug characters becomes a single hyphen. -/
def collapseRuns (l : List Char) : List Char :=
  collapseAux false l

/-- Half of `.replace(/(^-|-$)/g, '')`: drop a single leading hyphen. -/
def dropLeadHyphen : List Char → List Char
  | [] => []
  | c :: t => if c = '-' then t else c :: t

/-- Other half of `.replace(/(^-|-$)/g, '')`: drop a single trailing hyphen. -/
def dropTrailHyphen : List Char → List Char
  | [] => []
  | [c] => if c = '-' then [] else [c]
  | c :: rest => c :: dropTrailHyphen rest

/-- The source `slugify`: lower-case, collapse runs of characters outside
`[a-z0-9]` to single hyphens, strip one leading and one trailing hyphen.
`Char.toLower` matches JS `toLowerCase` on ASCII, the alphabet of this data. -/
def slugify (s : String) : String :=
  ⟨dropTrailHyphen (dropLeadHyphen (collapseRuns (s.toList.map Char.toLower)))⟩

/-- Canonical player record (types/player.ts); numeric statistics are JS
numbers, description is optional. -/
structure Player where
  id : String
  name : String
  position : String
  games : JsNum
  atBats : JsNum
  runs : JsNum
  hits : JsNum
  doubles : JsNum
  triples : JsNum
  homeRuns : JsNum
  rbi : JsNum
  walks : JsNum
  strikeouts : JsNum
  stolenBases : JsNum
  caughtStealing : JsNum
  avg : JsNum
  obp : JsNum
  slg : JsNum
  ops : JsNum
  description : Option String
  deriving DecidableEq

/-- The source `mapRawToPlayer`: normalize one raw upstream row at a given
zero-based index into a canonical player.  Each field tries its ordered key
synonyms; single-key fields are written as one-element chains (`num` and
`strOf` give the same value on `raw[k]` and on the one-element chain). -/
def mapRawToPlayer (raw : RawRow) (index : ℕ) : Player :=
  let name := strOf (chainGet raw ["Player name", "player name", "name"])
  { id := slugify name ++ "-" ++ toString index
    name := name
    position := strOf (chainGet raw ["position", "Position"])
    games := num (chainGet raw ["Games"])
    atBats := num (chainGet raw ["At-bat", "At-bats"])
    runs := num (chainGet raw ["Runs"])
    hits := num (chainGet raw ["Hits"])
    doubles := num (chainGet raw ["Double (2B)", "2B"])
    triples := num (chainGet raw ["third baseman", "3B"])
    homeRuns := num (chainGet raw ["home run", "Home run", "HR"])
    rbi := num (chainGet raw ["run batted in", "RBI"])
    walks := num (chainGet raw ["a walk", "BB"])
    strikeouts := num (chainGet raw ["Strikeouts", "SO"])
    stolenBases := num (chainGet raw ["stolen base", "SB"])
    caughtStealing := num (chainGet raw ["Caught stealing", "CS"])
    avg := num (chainGet raw ["AVG"])
    obp := num (chainGet raw ["On-base Percentage", "OBP"])
    slg := num (chainGet raw ["Slugging Percentage", "SLG"])
    ops := num (chainGet raw ["On-base Plus Slugging", "OPS"])
    description := none }

/-- Faithfulness of the one-element chain encoding: on a single key it agrees
with direct property access under both conversions used by the mapper. -/
theorem chainGet_single_faithful (raw : RawRow) (k : String) :
    num (chainGet raw [k]) = num (jsGet raw k) ∧
    strOf (chainGet raw [k]) = strOf (jsGet raw k) := by
  cases h : jsGet raw k with
  | none => simp [chainGet, orv, h]
  | some v => cases v <;> simp [chainGet, orv, h, num, strOf]

/-- Modelled from the spec: the override record (server/services/players.ts is
absent from the snapshot).  A sparse patch over any subset of the player's
mutable fields — everything except the identifier — plus the optional
generated description. -/
structure PlayerPatch where
  name : Option String := none
  position : Option String := none
  games : Option JsNum := none
  atBats : Option JsNum := none
  runs : Option JsNum := none
  hits : Option JsNum := none
  doubles : Option JsNum := none
  triples : Option JsNum := none
  homeRuns : Option JsNum := none
  rbi : Option JsNum := none
  walks : Option JsNum := none
  strikeouts : Option JsNum := none
  stolenBases : Option JsNum := none
  caughtStealing : Option JsNum := none
  avg : Option JsNum := none
  obp : Option JsNum := none
  slg : Option JsNum := none
  ops : Option JsNum := none
  description : Option String := none
  deriving DecidableEq

/-- Modelled from the spec: field-level shallow overlay of an override onto an
upstream player (object-spread semantics); every field present in the override
replaces the upstream field, absent fields keep the upstream value, and the
identifier is never overridden. -/
def applyPatch (p : Player) (o : PlayerPatch) : Player :=
  { id := p.id
    name := o.name.getD p.name
    position := o.position.getD p.position
    games := o.games.getD p.games
    atBats := o.atBats.getD p.atBats
    runs := o.runs.getD p.runs
    hits := o.hits.getD p.hits
    doubles := o.doubles.getD p.doubles
    triples := o.triples.getD p.triples
    homeRuns := o.homeRuns.getD p.homeRuns
    rbi := o.rbi.getD p.rbi
    walks := o.walks.getD p.walks
    strikeouts := o.strikeouts.getD p.strikeouts
    stolenBases := o.stolenBases.getD p.stolenBases
    caughtStealing := o.caughtStealing.getD p.caughtStealing
    avg := o.avg.getD p.avg
    obp := o.obp.getD p.obp
    slg := o.slg.getD p.slg
    ops := o.ops.getD p.ops
    description := match o.description with
      | some d => some d
      | none => p.description }

/-- Modelled from the spec: overlay one patch over another, the second patch
winning on every field it provides (prisma-style shallow field replace). -/
def overlay (a b : PlayerPatch) : PlayerPatch :=
  { name := b.name <|> a.name
    position := b.position <|> a.position
    games := b.games <|> a.games
    atBats := b.atBats <|> a.atBats
    runs := b.runs <|> a.runs
    hits := b.hits <|> a.hits
    doubles := b.doubles <|> a.doubles
    triples := b.triples <|> a.triples
    homeRuns := b.homeRuns <|> a.homeRuns
    rbi := b.rbi <|> a.rbi
    walks := b.walks <|> a.walks
    strikeouts := b.strikeouts <|> a.strikeouts
    stolenBases := b.stolenBases <|> a.stolenBases
    caughtStealing := b.caughtStealing <|> a.caughtStealing
    avg := b.avg <|> a.avg
    obp := b.obp <|> a.obp
    slg := b.slg <|> a.slg
    ops := b.ops <|> a.ops
    description := b.description <|> a.description }

/-- Modelled from the spec: the full current merged player taken as a patch,
used as the creation base of a new override record. -/
def fullPatchOf (p : Player) : PlayerPatch :=
  { name := some p.name
    position := some p.position
    games := some p.games
    atBats := some p.atBats
    runs := some p.runs
    hits := some p.hits
    doubles := some p.doubles
    triples := some p.triples
    homeRuns := some p.homeRuns
    rbi := some p.rbi
    walks := some p.walks
    strikeouts := some p.strikeouts
    stolenBases := some p.stolenBases
    caughtStealing := some p.caughtStealing
    avg := some p.avg
    obp := some p.obp
    slg := some p.slg
    ops := some p.ops
    description := p.description }

/-- Override store contents: records keyed by player identifier. -/
def OverrideStore := List (String × PlayerPatch)

/-- Modelled from the spec: store `upsert` — replace the record under the key
if present, otherwise append a new record. -/
def upsertOv : OverrideStore → String → PlayerPatch → OverrideStore
  | [], id, r => [(id, r)]
  | (k, v) :: t, id, r =>
      if k == id then (id, r) :: t else (k, v) :: upsertOv t id r

/-- Store lookup by player identifier. -/
def lookupOv (e : OverrideStore) (id : String) : Option PlayerPatch :=
  List.lookup id e

/-- Reconciliation of a single upstream player against the override store. -/
def mergeOne (edits : OverrideStore) (p : Player) : Player :=
  match lookupOv edits p.id with
  | some o => applyPatch p o
  | none => p

/-- Modelled from the spec: `mergePlayerData` — for each upstream player in
upstream order, overlay its override record when one exists. -/
def mergePlayerData (upstream : List Player) (edits : OverrideStore) : List Player :=
  upstream.map (mergeOne edits)

/-- Modelled from the spec: `getPlayers` (the reconciler's `getAll`). -/
def getPlayers (upstream : List Player) (edits : OverrideStore) : List Player :=
  mergePlayerData upstream edits

/-- Modelled from the spec: `getPlayerById` (the reconciler's `getById`) —
filter the merged view by identifier; absent is an explicit `none`. -/
def getPlayerById (upstream : List Player) (edits : OverrideStore) (id : String) :
    Option Player :=
  (getPlayers upstream edits).find? fun p => p.id == id

/-- Reconciler failures. -/
inductive RecError where
  | notFound
  deriving DecidableEq

/-- Modelled from the spec: the reconciler's `update` — look up the current
merged player (`NotFound` when absent), then upsert the override record: on
creation the base is the full current merged player with the patch overlaid,
on update the patch is overlaid over the existing stored record.  Returns the
newly stored record together with the updated store. -/
def updatePlayer (upstream : List Player) (edits : OverrideStore)
    (id : String) (patch : PlayerPatch) :
    Except RecError (PlayerPatch × OverrideStore) :=
  match getPlayerById upstream edits id with
  | none => .error .notFound
  | some current =>
      let stored :=
        match lookupOv edits id with
        | none => overlay (fullPatchOf current) patch
        | some existing => overlay existing patch
      .ok (stored, upsertOv edits id stored)

/-- A PATCH request body after JSON parsing, restricted to the fields the
update schema reads; numbers are rationals (JSON has no NaN or infinities). -/
structure RawBody where
  name : Option String := none
  position : Option String := none
  games : Option ℚ := none
  atBats : Option ℚ := none
  runs : Option ℚ := none
  hits : Option ℚ := none
  doubles : Option ℚ := none
  triples : Option ℚ := none
  homeRuns : Option ℚ := none
  rbi : Option ℚ := none
  walks : Option ℚ := none
  strikeouts : Option ℚ := none
  stolenBases : Option ℚ := none
  caughtStealing : Option ℚ := none
  avg : Option ℚ := none
  obp : Option ℚ := none
  slg : Option ℚ := none
  ops : Option ℚ := none
  deriving DecidableEq

/-- Check for `z.number().int().min(0).optional()`. -/
def intFieldOk (v : Option ℚ) : Bool :=
  match v with
  | none => true
  | some q => q.den == 1 && decide (0 ≤ q)

/-- Check for `z.number().min(0).max(1).optional()`. -/
def avgFieldOk (v : Option ℚ) : Bool :=
  match v with
  | none => true
  | some q => decide (0 ≤ q) && decide (q ≤ 1)

/-- Check for `z.number().min(0).optional()`. -/
def nonnegFieldOk (v : Option ℚ) : Bool :=
  match v with
  | none => true
  | some q => decide (0 ≤ q)

/-- The `UpdatePlayerSchema` checks (types/schemas.ts): every field optional,
counting statistics non-negative integers, avg in [0,1], obp/slg/ops
non-negative. -/
def updateSchemaOk (b : RawBody) : Bool :=
  intFieldOk b.games && intFieldOk b.atBats && intFieldOk b.runs &&
  intFieldOk b.hits && intFieldOk b.doubles && intFieldOk b.triples &&
  intFieldOk b.homeRuns && intFieldOk b.rbi && intFieldOk b.walks &&
  intFieldOk b.strikeouts && intFieldOk b.stolenBases &&
  intFieldOk b.caughtStealing && avgFieldOk b.avg &&
  nonnegFieldOk b.obp && nonnegFieldOk b.slg && nonnegFieldOk b.ops

/-- The parsed patch a valid body produces. -/
def toPatch (b : RawBody) : PlayerPatch :=
  { name := b.name
    position := b.position
    games := b.games.map JsNum.val
    atBats := b.atBats.map JsNum.val
    runs := b.runs.map JsNum.val
    hits := b.hits.map JsNum.val
    doubles := b.doubles.map JsNum.val
    triples := b.triples.map JsNum.val
    homeRuns := b.homeRuns.map JsNum.val
    rbi := b.rbi.map JsNum.val
    walks := b.walks.map JsNum.val
    strikeouts := b.strikeouts.map JsNum.val
    stolenBases := b.stolenBases.map JsNum.val
    caughtStealing := b.caughtStealing.map JsNum.val
    avg := b.avg.map JsNum.val
    obp := b.obp.map JsNum.val
    slg := b.slg.map JsNum.val
    ops := b.ops.map JsNum.val
    description := none }

/-- Validation failure (a ZodError in the source). -/
inductive VErr where
  | validationFailed
  deriving DecidableEq

/-- `UpdatePlayerSchema.parse`: the validated patch, or a ZodError. -/
def validateUpdate (b : RawBody) : Except VErr PlayerPatch :=
  if updateSchemaOk b then .ok (toPatch b) else .error .validationFailed

/-- An HTTP error produced by `createError` in the route handlers. -/
structure HttpError where
  statusCode : ℕ
  statusMessage : String
  deriving DecidableEq

/-- The GET /api/players/:id handler (server/api/players/[id].get.ts):
missing route param is 400, an absent player is 404, otherwise the merged
player is returned. -/
def getPlayerHandler (upstream : List Player) (edits : OverrideStore)
    (idOpt : Option String) : Except HttpError Player :=
  match idOpt with
  | none => .error ⟨400, "Missing player id"⟩
  | some id =>
      match getPlayerById upstream edits id with
      | none => .error ⟨404, "Player not found"⟩
      | some p => .ok p

/-- The PATCH /api/players/:id handler (server/api/players/[id].patch.ts):
missing route param is 400, a ZodError is translated to 400 "Validation
failed", and only a validated patch is forwarded to `updatePlayer`; a
NotFound from the service surfaces as 404. -/
def patchPlayerHandler (upstream : List Player) (edits : OverrideStore)
    (idOpt : Option String) (body : RawBody) :
    Except HttpError (PlayerPatch × OverrideStore) :=
  match idOpt with
  | none => .error ⟨400, "Missing player id"⟩
  | some id =>
      match validateUpdate body with
      | .error _ => .error ⟨400, "Validation failed"⟩
      | .ok patch =>
          match updatePlayer upstream edits id patch with
          | .error .notFound => .error ⟨404, "Player not found"⟩
          | .ok r => .ok r

/-- Description-policy failures. -/
inductive DescError where
  | notFound
  | generationUnavailable
  deriving DecidableEq

/-- Modelled from the spec: the external text-generation collaborator, as the
deterministic text it returns for a prompt, plus whether it is configured. -/
structure DescEnv where
  configured : Bool
  gen : String → String

/-- Modelled from the spec: fixed placeholder used when the collaborator
returns empty content. -/
def placeholderDesc : String := "No description available."

/-- Rendering of a JS number inside the prompt. -/
def jsNumToString (n : JsNum) : String :=
  match n with
  | .nan => "NaN"
  | .val q => if q.den = 1 then toString q.num else toString q

/-- Modelled from the spec: three-decimal rendering of a rate statistic,
simplified to the rounded thousandths count. -/
def format3 (n : JsNum) : String :=
  match n with
  | .nan => "NaN"
  | .val q => toString (round (q * 1000))

/-- Modelled from the spec: a natural-language prompt built deterministically
from the player's name, position and key statistics. -/
def buildPrompt (p : Player) : String :=
  "Write a short scouting report for " ++ p.name ++ " (" ++ p.position ++
  "). Games: " ++ jsNumToString p.games ++ ", hits: " ++ jsNumToString p.hits ++
  ", home runs: " ++ jsNumToString p.homeRuns ++ ", RBI: " ++
  jsNumToString p.rbi ++ ", AVG: " ++ format3 p.avg ++ ", OPS: " ++
  format3 p.ops ++ "."

/-- State threaded through the description policy: the override store and the
number of calls made to the generation collaborator so far. -/
structure DescState where
  edits : OverrideStore
  genCalls : ℕ

/-- Modelled from the spec: the text persisted after one collaborator call —
the generated content trimmed, or the fixed placeholder when it is empty. -/
def genText (env : DescEnv) (p : Player) : String :=
  let t := trimChars (env.gen (buildPrompt p)).toList
  if t.isEmpty then placeholderDesc else (⟨t⟩ : String)

/-- Modelled from the spec: the generation path — check configuration
eagerly, invoke the collaborator once, trim, fall back to the placeholder on
empty content, persist through the reconciler's update, report uncached. -/
def generateFor (upstream : List Player) (env : DescEnv) (st : DescState)
    (id : String) (p : Player) : Except DescError (String × Bool × DescState) :=
  if env.configured = false then .error .generationUnavailable
  else
    match updatePlayer upstream st.edits id { description := some (genText env p) } with
    | .error _ => .error .notFound
    | .ok (_, edits2) => .ok (genText env p, false, ⟨edits2, st.genCalls + 1⟩)

/-- Modelled from the spec: `getOrGenerate` — `NotFound` for an absent
player; a present (non-null, non-empty) description is returned immediately
as cached with no external call; otherwise generate once and persist. -/
def getOrGenerate (upstream : List Player) (env : DescEnv) (st : DescState)
    (id : String) : Except DescError (String × Bool × DescState) :=
  match getPlayerById upstream st.edits id with
  | none => .error .notFound
  | some p =>
      match p.description with
      | some d => if d = "" then generateFor upstream env st id p
                  else .ok (d, true, st)
      | none => generateFor upstream env st id p

/-- The slug pipeline as the specification words it: replace each maximal run
of non-alphanumeric characters (made explicit with takeWhile/dropWhile) by a
single hyphen.  Compared against the scanner `collapseAux` used by `slugify`. -/
def specCollapse : List Char → List Char
  | [] => []
  | c :: rest =>
      if isSlugChar c then
        (c :: rest.takeWhile isSlugChar) ++ specCollapse (rest.dropWhile isSlugChar)
      else '-' :: specCollapse (rest.dropWhile (fun d => !(isSlugChar d)))
termination_by l => l.length
decreasing_by
  · exact Nat.lt_succ_of_le (List.dropWhile_sublist _).length_le
  · exact Nat.lt_succ_of_le (List.dropWhile_sublist _).length_le

/-- The identifier slug as the specification words it: lower-case, replace
runs of non-alphanumeric characters by single hyphens, strip leading and
trailing hyphens. -/
def specSlug (s : String) : String :=
  ⟨dropTrailHyphen (dropLeadHyphen (specCollapse (s.toList.map Char.toLower)))⟩

/-- Names of the canonical numeric statistics. -/
inductive StatName where
  | games | atBats | runs | hits | doubles | triples | homeRuns | rbi
  | walks | strikeouts | stolenBases | caughtStealing | avg | obp | slg | ops
  deriving DecidableEq

/-- Projection of a canonical numeric statistic out of a player. -/
def statOf (p : Player) : StatName → JsNum
  | .games => p.games
  | .atBats => p.atBats
  | .runs => p.runs
  | .hits => p.hits
  | .doubles => p.doubles
  | .triples => p.triples
  | .homeRuns => p.homeRuns
  | .rbi => p.rbi
  | .walks => p.walks
  | .strikeouts => p.strikeouts
  | .stolenBases => p.stolenBases
  | .caughtStealing => p.caughtStealing
  | .avg => p.avg
  | .obp => p.obp
  | .slg => p.slg
  | .ops => p.ops

/-- The ordered source-key synonyms the mapper tries for each statistic. -/
def statKeys : StatName → List String
  | .games => ["Games"]
  | .atBats => ["At-bat", "At-bats"]
  | .runs => ["Runs"]
  | .hits => ["Hits"]
  | .doubles => ["Double (2B)", "2B"]
  | .triples => ["third baseman", "3B"]
  | .homeRuns => ["home run", "Home run", "HR"]
  | .rbi => ["run batted in", "RBI"]
  | .walks => ["a walk", "BB"]
  | .strikeouts => ["Strikeouts", "SO"]
  | .stolenBases => ["stolen base", "SB"]
  | .caughtStealing => ["Caught stealing", "CS"]
  | .avg => ["AVG"]
  | .obp => ["On-base Percentage", "OBP"]
  | .slg => ["Slugging Percentage", "SLG"]
  | .ops => ["On-base Plus Slugging", "OPS"]

/-- A raw property value that is absent (undefined) or null. -/
def nullish : Option JsValue → Bool
  | none => true
  | some .vNull => true
  | some _ => false

/-- Claim-level bound on one optional numeric field: present values are
non-negative. -/
def optNonneg (v : Option ℚ) : Prop :=
  match v with
  | none => True
  | some q => 0 ≤ q

/-- Claim-level bound on the average field: present values lie in [0,1]. -/
def optAvgBound (v : Option ℚ) : Prop :=
  match v with
  | none => True
  | some q => 0 ≤ q ∧ q ≤ 1

/-- The bounds the claim states for an update patch: every numeric field
non-negative and the average field in [0,1]. -/
def boundsOk (b : RawBody) : Prop :=
  optNonneg b.games ∧ optNonneg b.atBats ∧ optNonneg b.runs ∧
  optNonneg b.hits ∧ optNonneg b.doubles ∧ optNonneg b.triples ∧
  optNonneg b.homeRuns ∧ optNonneg b.rbi ∧ optNonneg b.walks ∧
  optNonneg b.strikeouts ∧ optNonneg b.stolenBases ∧
  optNonneg b.caughtStealing ∧ optAvgBound b.avg ∧
  optNonneg b.obp ∧ optNonneg b.slg ∧ optNonneg b.ops

/-- The worked scenario's upstream row. -/
def ruthRow : RawRow :=
  [("Player name", .vStr "Babe Ruth"), ("Hits", .vStr "2873"), ("HR", .vNum 714)]

/-- The canonical player the scenario row maps to. -/
def p0 : Player := mapRawToPlayer ruthRow 0

/-- A one-player upstream dataset for concrete instantiations. -/
def sampleUpstream : List Player := [p0]

/-- A concrete override touching only the hits field. -/
def hitsOverride : PlayerPatch := { hits := some (JsNum.val 99) }

/-- A store holding the concrete override. -/
def sampleEdits : OverrideStore := [("babe-ruth-0", hitsOverride)]

/-- The empty PATCH body `{}`. -/
def emptyBody : RawBody := {}

/-- A PATCH body violating the non-negativity bound. -/
def badBody : RawBody := { hits := some (-1) }

/-- A configured generation collaborator returning a fixed text. -/
def sampleEnv : DescEnv :=
  { configured := true, gen := fun _ => "A legendary slugger." }

/-- A description-policy state with no overrides and no calls made. -/
def sampleDescState : DescState := { edits := [], genCalls := 0 }

/-- Reconciliation never changes a player's identifier. -/
theorem applyPatch_id (p : Player) (o : PlayerPatch) : (applyPatch p o).id = p.id :=
  rfl

/-- Merging one player against the store keeps its identifier. -/
theorem mergeOne_id (e : OverrideStore) (p : Player) : (mergeOne e p).id = p.id := by
  unfold mergeOne
  cases lookupOv e p.id <;> rfl

/-- Lookup in the merged view is lookup in upstream followed by merging. -/
theorem getPlayerById_eq (u : List Player) (e : OverrideStore) (id : String) :
    getPlayerById u e id = (u.find? fun q => q.id == id).map (mergeOne e) := by
  unfold getPlayerById getPlayers mergePlayerData
  induction u with
  | nil => rfl
  | cons a t ih =>
      by_cases ha : a.id = id
      · simp [List.find?_cons, mergeOne_id, ha]
      · simp [List.find?_cons, mergeOne_id, ha, ih]

/-- Upserting a record makes it the one found under its key. -/
theorem lookupOv_upsertOv_self (e : OverrideStore) (id : String) (r : PlayerPatch) :
    lookupOv (upsertOv e id r) id = some r := by
  induction e with
  | nil => simp [upsertOv, lookupOv, List.lookup]
  | cons kv t ih =>
      obtain ⟨k, v⟩ := kv
      by_cases hk : k = id
      · simp [upsertOv, lookupOv, List.lookup, hk]
      · simp only [upsertOv, lookupOv, List.lookup]
        rw [if_neg (by simpa using hk)]
        have hik : (id == k) = false := by simpa using Ne.symm hk
        simpa [lookupOv, List.lookup, hik] using ih

/-- The claim's field-level merge contract between a merged player and its
upstream counterpart: with no override the player is returned unchanged, and
with an override every field present in the record wins while absent fields
keep the upstream value. -/
def overrideWins (m p : Player) (e : OverrideStore) : Prop :=
  match lookupOv e p.id with
  | none => m = p
  | some o =>
      m.id = p.id ∧
      m.name = o.name.getD p.name ∧
      m.position = o.position.getD p.position ∧
      m.games = o.games.getD p.games ∧
      m.atBats = o.atBats.getD p.atBats ∧
      m.runs = o.runs.getD p.runs ∧
      m.hits = o.hits.getD p.hits ∧
      m.doubles = o.doubles.getD p.doubles ∧
      m.triples = o.triples.getD p.triples ∧
      m.homeRuns = o.homeRuns.getD p.homeRuns ∧
      m.rbi = o.rbi.getD p.rbi ∧
      m.walks = o.walks.getD p.walks ∧
      m.strikeouts = o.strikeouts.getD p.strikeouts ∧
      m.stolenBases = o.stolenBases.getD p.stolenBases ∧
      m.caughtStealing = o.caughtStealing.getD p.caughtStealing ∧
      m.avg = o.avg.getD p.avg ∧
      m.obp = o.obp.getD p.obp ∧
      m.slg = o.slg.getD p.slg ∧
      m.ops = o.ops.getD p.ops ∧
      m.description = (match o.description with
        | some d => some d
        | none => p.description)

/-- Merging one player satisfies the field-level contract. -/
theorem mergeOne_overrideWins (e : OverrideStore) (p : Player) :
    overrideWins (mergeOne e p) p e := by
  unfold overrideWins mergeOne
  cases lookupOv e p.id with
  | none => rfl
  | some o => exact ⟨rfl, rfl, rfl, rfl, rfl, rfl, rfl, rfl, rfl, rfl, rfl,
      rfl, rfl, rfl, rfl, rfl, rfl, rfl, rfl, rfl⟩

/-- C1: merge precedence of reconciliation — the merged view has one entry
per upstream player in upstream order (same length, identifier preserved at
every index), and at each index the override record's fields win while fields
absent from the override keep the upstream values. -/
theorem merge_precedence (u : List Player) (e : OverrideStore) (i : ℕ)
    (hi : i < u.length) (hm : i < (getPlayers u e).length) :
    (getPlayers u e).length = u.length ∧
    ((getPlayers u e).get ⟨i, hm⟩).id = (u.get ⟨i, hi⟩).id ∧
    overrideWins ((getPlayers u e).get ⟨i, hm⟩) (u.get ⟨i, hi⟩) e := by
  have hlen : (getPlayers u e).length = u.length := by
    simp [getPlayers, mergePlayerData]
  have hget : (getPlayers u e).get ⟨i, hm⟩ = mergeOne e (u.get ⟨i, hi⟩) := by
    simp [getPlayers, mergePlayerData]
  refine ⟨hlen, ?_, ?_⟩
  · rw [hget, mergeOne_id]
  · rw [hget]
    exact mergeOne_overrideWins e (u.get ⟨i, hi⟩)

/-- Witness for C1 at a concrete one-player dataset with a hits override. -/
theorem merge_precedence_witness :
    (0 < sampleUpstream.length ∧ 0 < (getPlayers sampleUpstream sampleEdits).length) ∧
    ((getPlayers sampleUpstream sampleEdits).length = sampleUpstream.length ∧
      ((getPlayers sampleUpstream sampleEdits).get ⟨0, by decide⟩).id =
        (sampleUpstream.get ⟨0, by decide⟩).id ∧
      overrideWins ((getPlayers sampleUpstream sampleEdits).get ⟨0, by decide⟩)
        (sampleUpstream.get ⟨0, by decide⟩) sampleEdits) :=
  ⟨⟨by decide, by decide⟩, merge_precedence sampleUpstream sampleEdits 0 (by decide) (by decide)⟩

/-- C2: update accumulation — starting from a player with no prior override,
updating hits and then home runs creates the stored override from the full
current merged player as base with the first patch overlaid, overlays the
second patch over the stored record, and the final merged player carries both
edits with every other field untouched. -/
theorem update_accumulation (u : List Player) (e : OverrideStore) (id : String)
    (pu : Player) (hfu : (u.find? fun q => q.id == id) = some pu)
    (hno : lookupOv e id = none) :
    ∃ st1 e1 st2 e2,
      updatePlayer u e id { hits := some (JsNum.val 10) } = .ok (st1, e1) ∧
      st1 = overlay (fullPatchOf pu) { hits := some (JsNum.val 10) } ∧
      updatePlayer u e1 id { homeRuns := some (JsNum.val 5) } = .ok (st2, e2) ∧
      st2 = overlay st1 { homeRuns := some (JsNum.val 5) } ∧
      getPlayerById u e2 id =
        some { pu with hits := JsNum.val 10, homeRuns := JsNum.val 5 } := by
  have hid : pu.id = id := by
    have h := List.find?_some hfu
    simpa using h
  have hno' : lookupOv e pu.id = none := by rw [hid]; exact hno
  have hget0 : getPlayerById u e id = some pu := by
    rw [getPlayerById_eq, hfu]
    simp [mergeOne, hno']
  set patch1 : PlayerPatch := { hits := some (JsNum.val 10) } with hp1
  set patch2 : PlayerPatch := { homeRuns := some (JsNum.val 5) } with hp2
  set st1 := overlay (fullPatchOf pu) patch1 with hst1
  set e1 := upsertOv e id st1 with he1
  have hupd1 : updatePlayer u e id patch1 = .ok (st1, e1) := by
    simp [updatePlayer, hget0, hno, hst1, he1]
  have hl1 : lookupOv e1 id = some st1 := lookupOv_upsertOv_self e id st1
  have hget1 : getPlayerById u e1 id = some (applyPatch pu st1) := by
    rw [getPlayerById_eq, hfu]
    simp [mergeOne, hid, hl1]
  set st2 := overlay st1 patch2 with hst2
  set e2 := upsertOv e1 id st2 with he2
  have hupd2 : updatePlayer u e1 id patch2 = .ok (st2, e2) := by
    simp [updatePlayer, hget1, hl1, hst2, he2]
  have hl2 : lookupOv e2 id = some st2 := lookupOv_upsertOv_self e1 id st2
  have hget2 : getPlayerById u e2 id = some (applyPatch pu st2) := by
    rw [getPlayerById_eq, hfu]
    simp [mergeOne, hid, hl2]
  refine ⟨st1, e1, st2, e2, hupd1, rfl, hupd2, rfl, ?_⟩
  rw [hget2]
  congr 1
  cases hd : pu.description <;>
    simp [applyPatch, hst2, hst1, overlay, fullPatchOf, hp1, hp2, hd]

/-- Witness for C2 at the concrete scenario player with an empty store. -/
theorem update_accumulation_witness :
    ((sampleUpstream.find? fun q => q.id == "babe-ruth-0") = some p0 ∧
      lookupOv [] "babe-ruth-0" = none) ∧
    ∃ st1 e1 st2 e2,
      updatePlayer sampleUpstream [] "babe-ruth-0"
          { hits := some (JsNum.val 10) } = .ok (st1, e1) ∧
      st1 = overlay (fullPatchOf p0) { hits := some (JsNum.val 10) } ∧
      updatePlayer sampleUpstream e1 "babe-ruth-0"
          { homeRuns := some (JsNum.val 5) } = .ok (st2, e2) ∧
      st2 = overlay st1 { homeRuns := some (JsNum.val 5) } ∧
      getPlayerById sampleUpstream e2 "babe-ruth-0" =
        some { p0 with hits := JsNum.val 10, homeRuns := JsNum.val 5 } :=
  ⟨⟨by decide, rfl⟩,
    update_accumulation sampleUpstream [] "babe-ruth-0" p0 (by decide) rfl⟩

/-- C6: not-found behavior — an identifier absent from the merged view makes
`getPlayerById` return the explicit absent value (not an error), makes
`updatePlayer` fail with NotFound for every patch (so a retry against the
same view cannot change the outcome), makes the GET handler answer 404, and
makes the PATCH handler answer 404 for every validated body. -/
theorem not_found_behavior (u : List Player) (e : OverrideStore) (id : String)
    (h : ∀ p ∈ u, p.id ≠ id) :
    getPlayerById u e id = none ∧
    (∀ patch, updatePlayer u e id patch = .error .notFound) ∧
    getPlayerHandler u e (some id) = .error ⟨404, "Player not found"⟩ ∧
    (∀ body patch, validateUpdate body = .ok patch →
      patchPlayerHandler u e (some id) body = .error ⟨404, "Player not found"⟩) := by
  have hfind : (u.find? fun q => q.id == id) = none := by
    rw [List.find?_eq_none]
    intro p hp
    simpa using h p hp
  have hnone : getPlayerById u e id = none := by
    rw [getPlayerById_eq, hfind]
    rfl
  refine ⟨hnone, ?_, ?_, ?_⟩
  · intro patch
    simp [updatePlayer, hnone]
  · simp [getPlayerHandler, hnone]
  · intro body patch hv
    have hupd : updatePlayer u e id patch = .error .notFound := by
      simp [updatePlayer, hnone]
    unfold patchPlayerHandler
    rw [hv]
    simp only [hupd]

/-- Witness for C6 at a concrete absent identifier. -/
theorem not_found_behavior_witness :
    (∀ p ∈ sampleUpstream, p.id ≠ "nobody-7") ∧
    (getPlayerById sampleUpstream sampleEdits "nobody-7" = none ∧
      (∀ patch, updatePlayer sampleUpstream sampleEdits "nobody-7" patch =
        .error .notFound) ∧
      getPlayerHandler sampleUpstream sampleEdits (some "nobody-7") =
        .error ⟨404, "Player not found"⟩ ∧
      (∀ body patch, validateUpdate body = .ok patch →
        patchPlayerHandler sampleUpstream sampleEdits (some "nobody-7") body =
          .error ⟨404, "Player not found"⟩)) :=
  ⟨by decide, not_found_behavior sampleUpstream sampleEdits "nobody-7" (by decide)⟩

/-- A valid integer-count field is non-negative when present. -/
theorem intFieldOk_nonneg (v : Option ℚ) (h : intFieldOk v = true) : optNonneg v := by
  cases v with
  | none => trivial
  | some q =>
      simp [intFieldOk] at h
      simpa [optNonneg] using h.2

/-- A valid rate field is non-negative when present. -/
theorem nonnegFieldOk_nonneg (v : Option ℚ) (h : nonnegFieldOk v = true) :
    optNonneg v := by
  cases v with
  | none => trivial
  | some q =>
      simp [nonnegFieldOk] at h
      simpa [optNonneg] using h

/-- A valid average field lies in [0,1] when present. -/
theorem avgFieldOk_bound (v : Option ℚ) (h : avgFieldOk v = true) : optAvgBound v := by
  cases v with
  | none => trivial
  | some q =>
      simp [avgFieldOk] at h
      simpa [optAvgBound] using h

/-- A body passing the update schema satisfies the claim's bounds. -/
theorem updateSchemaOk_bounds (b : RawBody) (h : updateSchemaOk b = true) :
    boundsOk b := by
  simp only [updateSchemaOk, Bool.and_eq_true] at h
  obtain ⟨⟨⟨⟨⟨⟨⟨⟨⟨⟨⟨⟨⟨⟨⟨h1, h2⟩, h3⟩, h4⟩, h5⟩, h6⟩, h7⟩, h8⟩, h9⟩, h10⟩,
    h11⟩, h12⟩, h13⟩, h14⟩, h15⟩, h16⟩ := h
  exact ⟨intFieldOk_nonneg _ h1, intFieldOk_nonneg _ h2, intFieldOk_nonneg _ h3,
    intFieldOk_nonneg _ h4, intFieldOk_nonneg _ h5, intFieldOk_nonneg _ h6,
    intFieldOk_nonneg _ h7, intFieldOk_nonneg _ h8, intFieldOk_nonneg _ h9,
    intFieldOk_nonneg _ h10, intFieldOk_nonneg _ h11, intFieldOk_nonneg _ h12,
    avgFieldOk_bound _ h13, nonnegFieldOk_nonneg _ h14,
    nonnegFieldOk_nonneg _ h15, nonnegFieldOk_nonneg _ h16⟩

/-- C7: validation contract of the update input — any patch the schema
accepts satisfies the claimed bounds (numeric fields non-negative, average
in [0,1]), and any body violating those bounds is rejected by the PATCH
handler with a 400 validation failure regardless of the upstream data and
the override store, so it never reaches `updatePlayer`. -/
theorem update_validation (b : RawBody) :
    (∀ p, validateUpdate b = .ok p → boundsOk b) ∧
    (¬ boundsOk b → ∀ (u : List Player) (e : OverrideStore) (id : String),
      patchPlayerHandler u e (some id) b = .error ⟨400, "Validation failed"⟩) := by
  constructor
  · intro p hp
    have hok : updateSchemaOk b = true := by
      by_contra hbad
      simp [validateUpdate, hbad] at hp
    exact updateSchemaOk_bounds b hok
  · intro hb u e id
    have hbad : updateSchemaOk b = false := by
      by_contra hgood
      exact hb (updateSchemaOk_bounds b (by simpa using hgood))
    have hv : validateUpdate b = .error .validationFailed := by
      simp [validateUpdate, hbad]
    unfold patchPlayerHandler
    rw [hv]

/-- Witness for C7 at a body carrying a negative hits value. -/
theorem update_validation_witness :
    ¬ boundsOk badBody ∧
    patchPlayerHandler sampleUpstream sampleEdits (some "babe-ruth-0") badBody =
      .error ⟨400, "Validation failed"⟩ := by
  have hnb : ¬ boundsOk badBody := by
    intro hb
    have := hb.2.2.2.1
    simp only [badBody, optNonneg] at this
    norm_num at this
  exact ⟨hnb, (update_validation badBody).2 hnb sampleUpstream sampleEdits "babe-ruth-0"⟩

/-- C10: empty-patch acceptance — every schema field is optional, so the
empty body passes validation producing the empty patch, and the PATCH
handler forwards it to `updatePlayer` unchanged (only a NotFound can still
reject the request). -/
theorem empty_patch_accepted :
    validateUpdate emptyBody = .ok ({} : PlayerPatch) ∧
    ∀ (u : List Player) (e : OverrideStore) (id : String),
      patchPlayerHandler u e (some id) emptyBody =
        match updatePlayer u e id ({} : PlayerPatch) with
        | .error .notFound => .error ⟨404, "Player not found"⟩
        | .ok r => .ok r := by
  have hv : validateUpdate emptyBody = .ok ({} : PlayerPatch) := by rfl
  refine ⟨hv, ?_⟩
  intro u e id
  unfold patchPlayerHandler
  rw [hv]

/-- Each canonical statistic of a mapped player is the `num` conversion of
its ordered key chain. -/
theorem statOf_mapRawToPlayer (raw : RawRow) (i : ℕ) (s : StatName) :
    statOf (mapRawToPlayer raw i) s = num (chainGet raw (statKeys s)) := by
  cases s <;> rfl

/-- A key chain whose entries are all absent or null resolves to absent. -/
theorem chainGet_nullish (raw : RawRow) (ks : List String)
    (h : ∀ k ∈ ks, nullish (jsGet raw k) = true) : chainGet raw ks = none := by
  induction ks with
  | nil => rfl
  | cons k t ih =>
      have hk := h k (List.mem_cons_self k t)
      have ht := ih fun x hx => h x (List.mem_cons_of_mem k hx)
      cases hg : jsGet raw k with
      | none => simp [chainGet, orv, hg, ht]
      | some v =>
          cases v <;> simp_all [chainGet, orv, nullish]

/-- C3 (amended): numeric defaulting on normalization — every canonical
numeric statistic equals 0 whenever all of its accepted source fields are
missing or null; a present non-numeric value is instead converted with
JavaScript Number semantics, so a non-numeric string surfaces as NaN rather
than defaulting to 0. -/
theorem stat_default_on_missing (raw : RawRow) (i : ℕ) (s : StatName)
    (h : ∀ k ∈ statKeys s, nullish (jsGet raw k) = true) :
    statOf (mapRawToPlayer raw i) s = JsNum.val 0 := by
  rw [statOf_mapRawToPlayer, chainGet_nullish raw _ h]
  rfl

/-- Witness for the amended C3: a row without a Hits field maps hits to 0. -/
theorem stat_default_on_missing_witness :
    (∀ k ∈ statKeys .hits, nullish (jsGet ([] : RawRow) k) = true) ∧
    statOf (mapRawToPlayer ([] : RawRow) 0) .hits = JsNum.val 0 :=
  ⟨by decide, stat_default_on_missing ([] : RawRow) 0 .hits (by decide)⟩

/-- Counterexample to C3 as stated: a present but non-numeric Games value
maps to NaN, not to the claimed 0, and NaN is a canonical field value. -/
theorem stat_nonnumeric_yields_nan :
    (mapRawToPlayer [("Games", JsValue.vStr "abc")] 0).games = JsNum.nan ∧
    (mapRawToPlayer [("Games", JsValue.vStr "abc")] 0).games ≠ JsNum.val 0 := by
  decide

/-- C5: synonym normalization and the worked scenario — the Babe Ruth row at
index 0 maps to identifier "babe-ruth-0" with hits 2873 (numeric string),
home runs 714 (the "HR" synonym) and games 0 (missing field); and when an
earlier synonym in the ordered list is present it wins over a later one. -/
theorem synonym_scenario :
    (mapRawToPlayer ruthRow 0).id = "babe-ruth-0" ∧
    (mapRawToPlayer ruthRow 0).name = "Babe Ruth" ∧
    (mapRawToPlayer ruthRow 0).hits = JsNum.val 2873 ∧
    (mapRawToPlayer ruthRow 0).homeRuns = JsNum.val 714 ∧
    (mapRawToPlayer ruthRow 0).games = JsNum.val 0 ∧
    (mapRawToPlayer [("home run", JsValue.vNum 10), ("HR", JsValue.vNum 714)] 0).homeRuns
      = JsNum.val 10 := by
  decide

/-- Splitting off the leading alphanumeric run leaves `specCollapse` fixed. -/
theorem specCollapse_run (r : List Char) :
    r.takeWhile isSlugChar ++ specCollapse (r.dropWhile isSlugChar) =
      specCollapse r := by
  cases r with
  | nil => simp [specCollapse]
  | cons d t =>
      by_cases hd : isSlugChar d
      · simp [specCollapse, hd, List.takeWhile_cons, List.dropWhile_cons]
      · simp [List.takeWhile_cons, List.dropWhile_cons, hd]

/-- The scanner agrees with the specification's run-replacement: outside a
run it produces `specCollapse`, and inside a run it produces `specCollapse`
of the input with the rest of the run dropped. -/
theorem collapseAux_spec (l : List Char) :
    collapseAux false l = specCollapse l ∧
    collapseAux true l = specCollapse (l.dropWhile fun d => !(isSlugChar d)) := by
  induction l with
  | nil => refine ⟨?_, ?_⟩ <;> simp [collapseAux, specCollapse]
  | cons c rest ih =>
      obtain ⟨ihA, ihB⟩ := ih
      by_cases hc : isSlugChar c
      · constructor
        · rw [show collapseAux false (c :: rest) = c :: collapseAux false rest by
            simp [collapseAux, hc]]
          rw [ihA, show specCollapse (c :: rest) =
            (c :: rest.takeWhile isSlugChar) ++ specCollapse (rest.dropWhile isSlugChar) by
              simp [specCollapse, hc]]
          rw [List.cons_append, specCollapse_run]
        · rw [show (c :: rest).dropWhile (fun d => !(isSlugChar d)) = c :: rest by
            simp [List.dropWhile_cons, hc]]
          rw [show collapseAux true (c :: rest) = c :: collapseAux false rest by
            simp [collapseAux, hc]]
          rw [ihA, show specCollapse (c :: rest) =
            (c :: rest.takeWhile isSlugChar) ++ specCollapse (rest.dropWhile isSlugChar) by
              simp [specCollapse, hc]]
          rw [List.cons_append, specCollapse_run]
      · constructor
        · rw [show collapseAux false (c :: rest) = '-' :: collapseAux true rest by
            simp [collapseAux, hc]]
          rw [ihB, show specCollapse (c :: rest) =
            '-' :: specCollapse (rest.dropWhile fun d => !(isSlugChar d)) by
              simp [specCollapse, hc]]
        · rw [show (c :: rest).dropWhile (fun d => !(isSlugChar d)) =
            rest.dropWhile (fun d => !(isSlugChar d)) by simp [List.dropWhile_cons, hc]]
          rw [show collapseAux true (c :: rest) = collapseAux true rest by
            simp [collapseAux, hc]]
          exact ihB

/-- The source slug equals the slug the specification describes. -/
theorem slugify_eq_specSlug (s : String) : slugify s = specSlug s := by
  unfold slugify specSlug collapseRuns
  rw [(collapseAux_spec _).1]

/-- C4: identifier generation — the identifier of every mapped row is the
specification's slug of its display name (lower-case, runs of
non-alphanumerics collapsed to single hyphens, edge hyphens stripped)
followed by a hyphen and the zero-based index. -/
theorem identifier_generation (raw : RawRow) (i : ℕ) :
    (mapRawToPlayer raw i).id =
      specSlug ((mapRawToPlayer raw i).name) ++ "-" ++ toString i := by
  show slugify _ ++ "-" ++ toString i = _
  rw [slugify_eq_specSlug]
  rfl

/-- A slug character is not a hyphen. -/
theorem isSlugChar_ne_hyphen {c : Char} (h : isSlugChar c = true) : c ≠ '-' := by
  intro hc
  rw [hc] at h
  exact absurd h (by decide)

/-- Every character the scanner emits is a slug character or a hyphen. -/
theorem collapseAux_mem (flag : Bool) (l : List Char) (c : Char)
    (h : c ∈ collapseAux flag l) : isSlugChar c = true ∨ c = '-' := by
  induction l generalizing flag with
  | nil => simp [collapseAux] at h
  | cons a t ih =>
      by_cases ha : isSlugChar a
      · rw [show collapseAux flag (a :: t) = a :: collapseAux false t by
          simp [collapseAux, ha]] at h
        rcases List.mem_cons.mp h with rfl | hmem
        · exact Or.inl ha
        · exact ih false hmem
      · cases flag with
        | true =>
            rw [show collapseAux true (a :: t) = collapseAux true t by
              simp [collapseAux, ha]] at h
            exact ih true h
        | false =>
            rw [show collapseAux false (a :: t) = '-' :: collapseAux true t by
              simp [collapseAux, ha]] at h
            rcases List.mem_cons.mp h with rfl | hmem
            · exact Or.inr rfl
            · exact ih true hmem

/-- Inside a run the scanner's next emitted character is alphanumeric. -/
theorem collapseAux_true_head (l : List Char) (c : Char)
    (h : (collapseAux true l).head? = some c) : isSlugChar c = true := by
  induction l with
  | nil => simp [collapseAux] at h
  | cons a t ih =>
      by_cases ha : isSlugChar a
      · rw [show collapseAux true (a :: t) = a :: collapseAux false t by
          simp [collapseAux, ha]] at h
        simp at h
        rwa [← h]
      · rw [show collapseAux true (a :: t) = collapseAux true t by
          simp [collapseAux, ha]] at h
        exact ih h

/-- The scanner never emits two adjacent hyphens. -/
theorem collapseAux_chain (flag : Bool) (l : List Char) :
    List.Chain' (fun a b => ¬(a = '-' ∧ b = '-')) (collapseAux flag l) := by
  induction l generalizing flag with
  | nil => simp [collapseAux]
  | cons a t ih =>
      by_cases ha : isSlugChar a
      · rw [show collapseAux flag (a :: t) = a :: collapseAux false t by
          simp [collapseAux, ha]]
        refine List.chain'_cons'.mpr ⟨?_, ih false⟩
        intro b _
        intro hab
        exact isSlugChar_ne_hyphen ha hab.1
      · cases flag with
        | true =>
            rw [show collapseAux true (a :: t) = collapseAux true t by
              simp [collapseAux, ha]]
            exact ih true
        | false =>
            rw [show collapseAux false (a :: t) = '-' :: collapseAux true t by
              simp [collapseAux, ha]]
            refine List.chain'_cons'.mpr ⟨?_, ih true⟩
            intro b hb
            intro hab
            exact isSlugChar_ne_hyphen (collapseAux_true_head t b hb) hab.2

/-- Dropping the leading hyphen from a hyphen-chain list leaves a list whose
head is not a hyphen. -/
theorem head_dropLeadHyphen (m : List Char)
    (hch : List.Chain' (fun a b => ¬(a = '-' ∧ b = '-')) m) :
    (dropLeadHyphen m).head? ≠ some '-' := by
  cases m with
  | nil => simp [dropLeadHyphen]
  | cons a t =>
      by_cases ha : a = '-'
      · rw [show dropLeadHyphen (a :: t) = t by simp [dropLeadHyphen, ha]]
        cases t with
        | nil => simp
        | cons b t2 =>
            have hrel := (List.chain'_cons'.mp hch).1 b (by simp)
            intro hb
            simp at hb
            exact hrel ⟨ha, hb⟩
      · rw [show dropLeadHyphen (a :: t) = a :: t by simp [dropLeadHyphen, ha]]
        intro hb
        simp at hb
        exact ha hb

/-- Dropping the trailing hyphen does not change the head it reports. -/
theorem head_dropTrailHyphen (m : List Char) (c : Char)
    (h : (dropTrailHyphen m).head? = some c) : m.head? = some c := by
  match m with
  | [] => simp [dropTrailHyphen] at h
  | [a] =>
      by_cases ha : a = '-'
      · simp [dropTrailHyphen, ha] at h
      · simp [dropTrailHyphen, ha] at h
        simpa using h
  | a :: b :: t =>
      rw [show dropTrailHyphen (a :: b :: t) = a :: dropTrailHyphen (b :: t) from rfl] at h
      simpa using h

/-- Dropping the trailing hyphen from a hyphen-chain list leaves a list whose
last element is not a hyphen. -/
theorem getLast_dropTrailHyphen (m : List Char)
    (hch : List.Chain' (fun a b => ¬(a = '-' ∧ b = '-')) m) :
    (dropTrailHyphen m).getLast? ≠ some '-' := by
  induction m with
  | nil => simp [dropTrailHyphen]
  | cons a t ih =>
      cases t with
      | nil =>
          by_cases ha : a = '-' <;> simp [dropTrailHyphen, ha]
      | cons b t2 =>
          have hch2 : List.Chain' (fun x y => ¬(x = '-' ∧ y = '-')) (b :: t2) :=
            (List.chain'_cons'.mp hch).2
          rw [show dropTrailHyphen (a :: b :: t2) = a :: dropTrailHyphen (b :: t2)
            from rfl]
          cases hdt : dropTrailHyphen (b :: t2) with
          | nil =>
              have hrel := (List.chain'_cons'.mp hch).1 b (by simp)
              have hb : b = '-' := by
                cases t2 with
                | nil =>
                    by_cases hb' : b = '-'
                    · exact hb'
                    · simp [dropTrailHyphen, hb'] at hdt
                | cons x xs => simp [dropTrailHyphen] at hdt
              intro hlast
              simp at hlast
              exact hrel ⟨hlast, hb⟩
          | cons x xs =>
              rw [List.getLast?_cons_cons]
              rw [← hdt]
              exact ih hch2

/-- Membership survives dropping the leading hyphen. -/
theorem mem_dropLeadHyphen (m : List Char) (c : Char)
    (h : c ∈ dropLeadHyphen m) : c ∈ m := by
  cases m with
  | nil => simp [dropLeadHyphen] at h
  | cons a t =>
      by_cases ha : a = '-'
      · rw [show dropLeadHyphen (a :: t) = t by simp [dropLeadHyphen, ha]] at h
        exact List.mem_cons_of_mem a h
      · rwa [show dropLeadHyphen (a :: t) = a :: t by simp [dropLeadHyphen, ha]] at h

/-- Membership survives dropping the trailing hyphen. -/
theorem mem_dropTrailHyphen (m : List Char) (c : Char)
    (h : c ∈ dropTrailHyphen m) : c ∈ m := by
  induction m with
  | nil => simp [dropTrailHyphen] at h
  | cons a t ih =>
      cases t with
      | nil =>
          by_cases ha : a = '-'
          · simp [dropTrailHyphen, ha] at h
          · simp [dropTrailHyphen, ha] at h
            simp [h]
      | cons b t2 =>
          rw [show dropTrailHyphen (a :: b :: t2) = a :: dropTrailHyphen (b :: t2)
            from rfl] at h
          rcases List.mem_cons.mp h with rfl | hmem
          · exact List.mem_cons_self _ _
          · exact List.mem_cons_of_mem _ (ih hmem)

/-- The hyphen chain survives dropping the leading hyphen. -/
theorem chain_dropLeadHyphen (m : List Char)
    (hch : List.Chain' (fun a b => ¬(a = '-' ∧ b = '-')) m) :
    List.Chain' (fun a b => ¬(a = '-' ∧ b = '-')) (dropLeadHyphen m) := by
  cases m with
  | nil => simp [dropLeadHyphen]
  | cons a t =>
      by_cases ha : a = '-'
      · rw [show dropLeadHyphen (a :: t) = t by simp [dropLeadHyphen, ha]]
        exact (List.chain'_cons'.mp hch).2
      · rwa [show dropLeadHyphen (a :: t) = a :: t by simp [dropLeadHyphen, ha]]

/-- The hyphen chain survives dropping the trailing hyphen. -/
theorem chain_dropTrailHyphen (m : List Char)
    (hch : List.Chain' (fun a b => ¬(a = '-' ∧ b = '-')) m) :
    List.Chain' (fun a b => ¬(a = '-' ∧ b = '-')) (dropTrailHyphen m) := by
  induction m with
  | nil => simp [dropTrailHyphen]
  | cons a t ih =>
      cases t with
      | nil =>
          by_cases ha : a = '-' <;> simp [dropTrailHyphen, ha]
      | cons b t2 =>
          have hch2 := (List.chain'_cons'.mp hch).2
          rw [show dropTrailHyphen (a :: b :: t2) = a :: dropTrailHyphen (b :: t2)
            from rfl]
          refine List.chain'_cons'.mpr ⟨?_, ih hch2⟩
          intro x hx
          have hx' : (dropTrailHyphen (b :: t2)).head? = some x := Option.mem_def.mp hx
          have hxb : (b :: t2).head? = some x := head_dropTrailHyphen _ _ hx'
          have hbx : b = x := by simpa using hxb
          subst hbx
          exact (List.chain'_cons'.mp hch).1 b (by simp)

/-- On input with no alphanumeric characters the scanner emits at most the
one hyphen of the single run. -/
theorem collapseAux_all_nonslug (l : List Char)
    (h : ∀ c ∈ l, isSlugChar c = false) :
    (collapseAux false l = [] ∨ collapseAux false l = ['-']) ∧
    collapseAux true l = [] := by
  induction l with
  | nil => exact ⟨Or.inl rfl, rfl⟩
  | cons a t ih =>
      have ha := h a (List.mem_cons_self _ _)
      have ht := ih fun c hc => h c (List.mem_cons_of_mem _ hc)
      constructor
      · rw [show collapseAux false (a :: t) = '-' :: collapseAux true t by
          simp [collapseAux, ha]]
        rw [ht.2]
        exact Or.inr rfl
      · rw [show collapseAux true (a :: t) = collapseAux true t by
          simp [collapseAux, ha]]
        exact ht.2

/-- Shape of every slug `slugify` produces: characters are lowercase
alphanumerics or hyphens, hyphens are single and interior, and a name with
no alphanumeric characters yields the empty slug. -/
theorem slugify_shape (s : String) :
    (∀ c ∈ (slugify s).toList, isSlugChar c = true ∨ c = '-') ∧
    List.Chain' (fun a b => ¬(a = '-' ∧ b = '-')) (slugify s).toList ∧
    (slugify s).toList.head? ≠ some '-' ∧
    (slugify s).toList.getLast? ≠ some '-' ∧
    ((s.toList.all fun c => !(isSlugChar (Char.toLower c))) = true →
      slugify s = "") := by
  have hdata : (slugify s).toList =
      dropTrailHyphen (dropLeadHyphen (collapseAux false (s.toList.map Char.toLower))) :=
    rfl
  have hchain0 := collapseAux_chain false (s.toList.map Char.toLower)
  refine ⟨?_, ?_, ?_, ?_, ?_⟩
  · intro c hc
    rw [hdata] at hc
    exact collapseAux_mem false _ c
      (mem_dropLeadHyphen _ c (mem_dropTrailHyphen _ c hc))
  · rw [hdata]
    exact chain_dropTrailHyphen _ (chain_dropLeadHyphen _ hchain0)
  · rw [hdata]
    intro hhd
    exact head_dropLeadHyphen _ hchain0 (head_dropTrailHyphen _ _ hhd)
  · rw [hdata]
    exact getLast_dropTrailHyphen _ (chain_dropLeadHyphen _ hchain0)
  · intro hall
    have hns : ∀ c ∈ s.toList.map Char.toLower, isSlugChar c = false := by
      intro c hc
      rcases List.mem_map.mp hc with ⟨d, hd, rfl⟩
      have := List.all_eq_true.mp hall d hd
      simpa using this
    rcases (collapseAux_all_nonslug _ hns).1 with h0 | h1
    · unfold slugify collapseRuns
      rw [h0]
      rfl
    · unfold slugify collapseRuns
      rw [h1]
      rfl

/-- C9: identifier-shape invariant — every generated identifier is the slug
of the display name followed by a hyphen and the index; the slug consists of
lowercase alphanumerics with single interior hyphens only; and a display
name with no alphanumeric characters (in particular an absent one, mapped to
the empty string) degenerates the identifier to "-index", which therefore
begins with a hyphen. -/
theorem identifier_shape (raw : RawRow) (i : ℕ) :
    (mapRawToPlayer raw i).id =
      slugify ((mapRawToPlayer raw i).name) ++ "-" ++ toString i ∧
    (∀ c ∈ (slugify ((mapRawToPlayer raw i).name)).toList,
      isSlugChar c = true ∨ c = '-') ∧
    List.Chain' (fun a b => ¬(a = '-' ∧ b = '-'))
      (slugify ((mapRawToPlayer raw i).name)).toList ∧
    (slugify ((mapRawToPlayer raw i).name)).toList.head? ≠ some '-' ∧
    (slugify ((mapRawToPlayer raw i).name)).toList.getLast? ≠ some '-' ∧
    (((mapRawToPlayer raw i).name.toList.all
        fun c => !(isSlugChar (Char.toLower c))) = true →
      (mapRawToPlayer raw i).id = "-" ++ toString i) := by
  obtain ⟨hmem, hch, hhd, hlast, hempty⟩ := slugify_shape ((mapRawToPlayer raw i).name)
  refine ⟨rfl, hmem, hch, hhd, hlast, ?_⟩
  intro hall
  have hid : (mapRawToPlayer raw i).id =
      slugify ((mapRawToPlayer raw i).name) ++ "-" ++ toString i := rfl
  rw [hid, hempty hall]
  rfl

/-- Witness for C9's degenerate branch: a row with no display name maps to
the identifier "-3" at index 3. -/
theorem identifier_shape_witness :
    ((mapRawToPlayer ([] : RawRow) 3).name.toList.all
        fun c => !(isSlugChar (Char.toLower c))) = true ∧
    (mapRawToPlayer ([] : RawRow) 3).id = "-" ++ toString 3 :=
  ⟨by decide, (identifier_shape ([] : RawRow) 3).2.2.2.2.2 (by decide)⟩

/-- The generated text is never empty: either the trimmed content or the
fixed placeholder. -/
theorem genText_ne_empty (env : DescEnv) (p : Player) : genText env p ≠ "" := by
  unfold genText
  intro hcontra
  by_cases hte : (trimChars (env.gen (buildPrompt p)).toList).isEmpty = true
  · rw [if_pos hte] at hcontra
    exact absurd hcontra (by decide)
  · rw [if_neg hte] at hcontra
    apply hte
    have hdata : trimChars (env.gen (buildPrompt p)).toList = [] := by
      simpa using congrArg String.data hcontra
    rw [hdata]
    rfl

/-- The generation path invokes the collaborator and persists a non-empty
description whose stored record reports it. -/
theorem generateFor_spec (u : List Player) (env : DescEnv) (st : DescState)
    (id : String) (p : Player) (hconf : env.configured = true)
    (hfind : getPlayerById u st.edits id = some p) :
    ∃ stored,
      generateFor u env st id p =
        .ok (genText env p, false, ⟨upsertOv st.edits id stored, st.genCalls + 1⟩) ∧
      stored.description = some (genText env p) := by
  unfold generateFor
  simp only [hconf]
  unfold updatePlayer
  rw [hfind]
  cases hl : lookupOv st.edits id with
  | none =>
      refine ⟨overlay (fullPatchOf p) { description := some (genText env p) }, ?_, ?_⟩
      · simp
      · simp [overlay, fullPatchOf]
  | some ex =>
      refine ⟨overlay ex { description := some (genText env p) }, ?_, ?_⟩
      · simp
      · simp [overlay]

/-- C8: description cache idempotence — a player whose description is
present (non-null and non-empty) is answered from cache with no collaborator
call; a player with no description triggers exactly one collaborator call on
the first request, and the immediately following request is answered from
cache with zero additional calls and the same text. -/
theorem description_cache_idempotence (u : List Player) (env : DescEnv)
    (st : DescState) (id : String) (p : Player)
    (hfind : getPlayerById u st.edits id = some p)
    (hconf : env.configured = true) :
    (∀ d, p.description = some d → d ≠ "" →
      getOrGenerate u env st id = .ok (d, true, st)) ∧
    (p.description = none →
      ∃ text st2, getOrGenerate u env st id = .ok (text, false, st2) ∧
        st2.genCalls = st.genCalls + 1 ∧ text ≠ "" ∧
        getOrGenerate u env st2 id = .ok (text, true, st2)) := by
  constructor
  · intro d hd hne
    unfold getOrGenerate
    rw [hfind]
    simp only [hd]
    simp [hne]
  · intro hd
    obtain ⟨stored, hgen, hstdesc⟩ := generateFor_spec u env st id p hconf hfind
    have htne : genText env p ≠ "" := genText_ne_empty env p
    have hmap := getPlayerById_eq u st.edits id
    rw [hfind] at hmap
    cases hfu : u.find? fun q => q.id == id with
    | none =>
        rw [hfu] at hmap
        simp at hmap
    | some pu =>
        rw [hfu] at hmap
        simp at hmap
        have hid : pu.id = id := by simpa using List.find?_some hfu
        refine ⟨genText env p, ⟨upsertOv st.edits id stored, st.genCalls + 1⟩, ?_,
          rfl, htne, ?_⟩
        · unfold getOrGenerate
          rw [hfind]
          simp only [hd]
          exact hgen
        · have hget2 : getPlayerById u (upsertOv st.edits id stored) id =
              some (applyPatch pu stored) := by
            rw [getPlayerById_eq, hfu]
            simp [mergeOne, hid, lookupOv_upsertOv_self]
          have hdesc2 : (applyPatch pu stored).description = some (genText env p) := by
            simp [applyPatch, hstdesc]
          unfold getOrGenerate
          rw [show (⟨upsertOv st.edits id stored, st.genCalls + 1⟩ : DescState).edits =
            upsertOv st.edits id stored from rfl]
          rw [hget2]
          simp only [hdesc2]
          simp [htne]

/-- Witness for C8: the scenario player with no description triggers one
call and is then served from cache. -/
theorem description_cache_idempotence_witness :
    (getPlayerById sampleUpstream sampleDescState.edits "babe-ruth-0" = some p0 ∧
      sampleEnv.configured = true) ∧
    ((∀ d, p0.description = some d → d ≠ "" →
      getOrGenerate sampleUpstream sampleEnv sampleDescState "babe-ruth-0" =
        .ok (d, true, sampleDescState)) ∧
    (p0.description = none →
      ∃ text st2,
        getOrGenerate sampleUpstream sampleEnv sampleDescState "babe-ruth-0" =
          .ok (text, false, st2) ∧
        st2.genCalls = sampleDescState.genCalls + 1 ∧ text ≠ "" ∧
        getOrGenerate sampleUpstream sampleEnv st2 "babe-ruth-0" =
          .ok (text, true, st2))) :=
  ⟨⟨by decide, rfl⟩,
    description_cache_idempotence sampleUpstream sampleEnv sampleDescState
      "babe-ruth-0" p0 (by decide) rfl⟩

end BaseballChat
